import Mathlib

/-!
Shallow embedding of the meetkiosk-case-study repository (TypeScript) and
proofs about its natural-language specification.

The embedding follows the source files:
  app/utils/matching/strategies/average-headcount.server.ts
  app/utils/matching/strategies/headcount-at-period-start.server.ts
    (also holds computeLeavers and computeHeadcountAtPeriodEnd)
  app/utils/matching/strategies/turnover-rate.server.ts
  app/utils/matching/extract-period.server.ts
  app/utils/dsn-parser/conformity.server.ts
  app/utils/dsn-parser/parser.server.ts
  app/utils/questions/loader.server.ts
  app/utils/matching/index.server.ts
  the group-by-attribute strategy and normalize.server.ts

JavaScript `Date` values produced by the code are calendar dates built with
`new Date(year, month, day)`; comparison of such dates by `<=`, `<` on
timestamps coincides with lexicographic comparison of (year, month, day),
which is how dates are modelled here.
-/

/-- Calendar date as produced by the JS `Date` constructor for in-range
arguments, compared lexicographically (equivalent to timestamp order). -/
structure DateYMD where
  year : Nat
  month : Nat
  day : Nat
deriving DecidableEq, Repr

/-- JS `a <= b` on two dates (timestamp order = lexicographic on y/m/d). -/
def dateLe (a b : DateYMD) : Bool :=
  if a.year < b.year then true
  else if b.year < a.year then false
  else if a.month < b.month then true
  else if b.month < a.month then false
  else a.day ≤ b.day

/-- JS `a < b` on two dates. -/
def dateLt (a b : DateYMD) : Bool :=
  !(dateLe b a)

/-- Leap year per the proleptic Gregorian calendar used by JS `Date`. -/
def isLeapYear (y : Nat) : Bool :=
  y % 4 = 0 && (y % 100 != 0 || y % 400 = 0)

/-- Number of days of month `m` (1-indexed) of year `y`. -/
def daysInMonth (y : Nat) (m : Nat) : Nat :=
  if m = 2 then (if isLeapYear y then 29 else 28)
  else if m = 4 || m = 6 || m = 9 || m = 11 then 30
  else 31

/-- Pad a numeral string to the left with zeros up to width `w`. -/
def padZero (w : Nat) (s : String) : String :=
  if s.length < w then String.mk (List.replicate (w - s.length) '0') ++ s else s

/-- `date.toISOString().split('T')[0]` for a calendar date (UTC rendering). -/
def dateISO (d : DateYMD) : String :=
  padZero 4 (toString d.year) ++ "-" ++ padZero 2 (toString d.month) ++ "-" ++
    padZero 2 (toString d.day)

/-- Render a rational that is an integer or half-integer the way JS prints
the corresponding number (`2` → "2", `5/2` → "2.5"). -/
def halfStr (q : ℚ) : String :=
  if q.den = 1 then toString q.num
  else toString (q.num / 2) ++ ".5"

/-- `Math.round`: round half toward positive infinity. -/
def jsRound (q : ℚ) : ℤ :=
  ⌊q + 1 / 2⌋

/-- `parseFloat(x.toFixed(1))`: value rounded to one decimal place. -/
def jsToFixed1 (q : ℚ) : ℚ :=
  (jsRound (q * 10) : ℚ) / 10

/-- Normalized employee record (`Employee` in types.server.ts). -/
structure Employee where
  id : String
  country : String
  birthCountry : String
  gender : Option String
  contractStart : Option DateYMD
  contractEnd : Option DateYMD
  pcsEse : Option String
deriving DecidableEq, Repr

/-- Result record `{ value, explanation }` returned by every metric strategy. -/
structure StratResult where
  value : ℚ
  explanation : String
deriving DecidableEq, Repr

/-- Reporting period `{ start, end }` (field `end` renamed: keyword). -/
structure Period where
  start : DateYMD
  stop : DateYMD
deriving DecidableEq, Repr

/-- `computeHeadcountAtPeriodStart` from headcount-at-period-start.server.ts:
employees with `contractStart && contractStart <= periodStart &&
(!contractEnd || contractEnd >= periodStart)`. -/
def computeHeadcountAtPeriodStart (employees : List Employee)
    (periodStart : DateYMD) : StratResult :=
  let activeAtStart :=
    (employees.filter fun emp =>
      (match emp.contractStart with
       | none => false
       | some s => dateLe s periodStart &&
           (match emp.contractEnd with
            | none => true
            | some e => dateLe periodStart e))).length
  { value := (activeAtStart : ℚ),
    explanation := toString activeAtStart ++
      " employees with active contracts as of " ++ dateISO periodStart }

/-- `computeLeavers` (same source file): employees whose `contractEnd` exists
and satisfies `contractEnd >= period.start && contractEnd <= period.end`. -/
def computeLeavers (employees : List Employee) (period : Period) : StratResult :=
  let leavers :=
    employees.filter fun emp =>
      match emp.contractEnd with
      | none => false
      | some e => dateLe period.start e && dateLe e period.stop
  let count := leavers.length
  { value := (count : ℚ),
    explanation := toString count ++ " employee" ++
      (if count != 1 then "s" else "") ++ " left between " ++
      dateISO period.start ++ " and " ++ dateISO period.stop }

/-- `computeHeadcountAtPeriodEnd` (same source file): rejects employees with
no `contractStart`, with `contractStart > periodEndDate`, or with a
`contractEnd` that is `<= periodEndDate`. -/
def computeHeadcountAtPeriodEnd (employees : List Employee)
    (periodEndDate : DateYMD) : StratResult :=
  let activeEmployees :=
    employees.filter fun emp =>
      match emp.contractStart with
      | none => false
      | some s =>
        if dateLt periodEndDate s then false
        else
          match emp.contractEnd with
          | none => true
          | some e => !(dateLe e periodEndDate)
  let count := activeEmployees.length
  { value := (count : ℚ),
    explanation := toString count ++ " employee" ++
      (if count != 1 then "s" else "") ++
      " with active contracts as of " ++ dateISO periodEndDate }

/-- `computeAverageHeadcount` from average-headcount.server.ts: counts
employees active at `period.start` and at `period.end` with the inlined
predicate `contractStart <= date && (!contractEnd || contractEnd >= date)`,
then returns `(startCount + endCount) / 2` kept to one decimal place. -/
def computeAverageHeadcount (employees : List Employee) (period : Period) :
    StratResult :=
  let startCount :=
    (employees.filter fun emp =>
      (match emp.contractStart with
       | none => false
       | some s => dateLe s period.start &&
           (match emp.contractEnd with
            | none => true
            | some e => dateLe period.start e))).length
  let endCount :=
    (employees.filter fun emp =>
      (match emp.contractStart with
       | none => false
       | some s => dateLe s period.stop &&
           (match emp.contractEnd with
            | none => true
            | some e => dateLe period.stop e))).length
  let average : ℚ := ((startCount : ℚ) + (endCount : ℚ)) / 2
  { value := jsToFixed1 average,
    explanation := "Average employees: (" ++ toString startCount ++ " + " ++
      toString endCount ++ ") / 2 = " ++ halfStr average }

/-- `computeTurnoverRate` from turnover-rate.server.ts: leavers divided by
headcount at period start, times 100, `Math.round`ed; 0 when the start
headcount is 0. -/
def computeTurnoverRate (employees : List Employee) (period : Period) :
    StratResult :=
  let leavers := computeLeavers employees period
  let startHeadcount := computeHeadcountAtPeriodStart employees period.start
  if startHeadcount.value = 0 then
    { value := 0, explanation := "Turnover rate: 0% (no starting headcount)" }
  else
    let rate := jsRound (leavers.value / startHeadcount.value * 100)
    { value := (rate : ℚ),
      explanation := "Turnover rate: " ++ toString rate ++ "% (" ++
        halfStr leavers.value ++ " leavers / " ++ halfStr startHeadcount.value ++
        " average employees)" }

/-! Specification-side predicates, written from the spec's words, used to
compare the strategies against the spec (refinement claims). -/

/-- Spec wording for "active at the end date": contract start is non-null and
`≤ d`, and contract end is null or `> d` (strict). -/
def specActiveStrict (d : DateYMD) (emp : Employee) : Bool :=
  match emp.contractStart with
  | none => false
  | some s => dateLe s d &&
      (match emp.contractEnd with
       | none => true
       | some e => dateLt d e)

/-- The predicate the code actually evaluates at the start date: contract
start non-null and `≤ d`, contract end null or `≥ d` (non-strict). -/
def specActiveLenient (d : DateYMD) (emp : Employee) : Bool :=
  match emp.contractStart with
  | none => false
  | some s => dateLe s d &&
      (match emp.contractEnd with
       | none => true
       | some e => dateLe d e)

/-- Spec wording for a leaver: contract end date lies within
`[period.start, period.stop]`, inclusive. -/
def specLeaver (period : Period) (emp : Employee) : Bool :=
  match emp.contractEnd with
  | none => false
  | some e => dateLe period.start e && dateLe e period.stop

/-! ### Reporting period extractor (extract-period.server.ts) -/

/-- `parseInt` base 10 on a string of decimal digits. -/
def natOfDigits (cs : List Char) : Nat :=
  cs.foldl (fun n c => n * 10 + (c.toNat - 48)) 0

/-- The regex test `/^\d{6,8}$/.test(moisStr)`. -/
def periodFormatOk (cs : List Char) : Bool :=
  6 ≤ cs.length && cs.length ≤ 8 && cs.all (fun c => c.isDigit)

/-- `new Date(year, month + 1, 0)` for a 0-indexed `month ∈ [0, 11]`: the JS
constructor rolls an overflowing month into the next year and day 0 back to
the last day of the previous month, which for these arguments is the last
day of 1-indexed month `m1 = month + 1` of `year` (for `m1 = 12`,
`new Date(year, 12, 0)` is Dec 31 of `year` = `⟨year, 12, 31⟩`, and
`daysInMonth year 12 = 31`). -/
def jsMonthEndDay0 (y : Nat) (m1 : Nat) : DateYMD :=
  ⟨y, m1, daysInMonth y m1⟩

/-- `extractReportingPeriod` from extract-period.server.ts, over the
declaration's `mois` field. Mirrors the source: missing-field error, format
error on the `\d{6,8}` regex, truncation of 8-character tokens to 6, range
validation of year and 0-indexed month, and the month's `[first day, last
day]` range built with the JS `Date` constructor. -/
def extractReportingPeriod (mois : Option String) : Except String Period :=
  match mois with
  | none =>
    .error "Missing reporting period in DSN (S20.G00.05.005). Field not found in parsed declaration."
  | some moisStr =>
    let cs := moisStr.toList
    if periodFormatOk cs then
      let yyyymm := if cs.length = 8 then cs.take 6 else cs
      let year : Nat := natOfDigits (yyyymm.take 4)
      let month : Int := (natOfDigits ((yyyymm.drop 4).take 2) : Int) - 1
      if year < 1900 || year > 2100 || month < 0 || month > 11 then
        .error ("Invalid period values in DSN: \x22" ++ moisStr ++ "\x22")
      else
        .ok ⟨⟨year, (month + 1).toNat, 1⟩, jsMonthEndDay0 year (month + 1).toNat⟩
    else
      .error ("Invalid reporting period format in DSN (S20.G00.05.005). Expected 6-digit (YYYYMM) or 8-digit (YYYYMMDD) format. Got: \x22" ++ moisStr ++ "\x22")

/-- Spec-side: the year encoded by a period token (its first four digits). -/
def specYear (s : String) : Nat :=
  natOfDigits (s.toList.take 4)

/-- Spec-side: the month encoded by a period token (digits five and six). -/
def specMonth (s : String) : Nat :=
  natOfDigits ((s.toList.drop 4).take 2)

/-- Spec-side acceptance predicate for the amended claim: the period field is
present, is a numeric token of six to eight digits, and encodes a year in
[1900, 2100] and a month in [1, 12] in its first six digits. -/
def specPeriodAccept (mois : Option String) : Bool :=
  match mois with
  | none => false
  | some s =>
    periodFormatOk s.toList &&
    (1900 ≤ specYear s && specYear s ≤ 2100 &&
      1 ≤ specMonth s && specMonth s ≤ 12)

/-! ### DSN parser (parser.server.ts and conformity.server.ts) -/

/-- One parsed DSN line (`DSNRow`). The line grammar guarantees a 3-digit
numeric sequence code; `valueCode` holds its `parseInt` value. -/
structure DSNRow where
  blocCode : String
  rubriqueCode : String
  valueCode : Nat
  value : String
deriving DecidableEq, Repr

/-- `Contrat` of parser.server.ts. -/
structure Contrat where
  dateDebut : Option String
  dateFin : Option String
  statutConventionnel : Option String
  pcsEse : Option String
  complementPcsEse : Option String
  nature : Option String
  dispositifPolitique : Option String
  numero : Option String
  uniteMesure : Option String
  quotiteCategorie : Option String
  quotite : Option String
  modaliteTemps : Option String
deriving DecidableEq, Repr

/-- `Activite` of parser.server.ts. -/
structure Activite where
  type : Option String
  mesure : Option String
  unite : Option String
deriving DecidableEq, Repr

/-- `Remuneration` of parser.server.ts. -/
structure Remuneration where
  dateDebut : Option String
  dateFin : Option String
  numeroContrat : Option String
  type : Option String
  nombreHeures : Option String
  montant : Option String
  activites : List Activite
deriving DecidableEq, Repr

/-- `Prime` of parser.server.ts (renamed: `Prime` exists in Mathlib). -/
structure PrimeVers where
  type : Option String
  montant : Option String
deriving DecidableEq, Repr

/-- `RevenuAutre` of parser.server.ts. -/
structure RevenuAutre where
  type : Option String
  montant : Option String
deriving DecidableEq, Repr

/-- `Versement` of parser.server.ts (no embedded block handler populates it;
the S21.G00.50–54 handlers are commented out in the source). -/
structure Versement where
  date : Option String
  remunerations : List Remuneration
  primes : List PrimeVers
  revenuAutres : List RevenuAutre
deriving DecidableEq, Repr

/-- `Individu` of parser.server.ts. -/
structure Individu where
  identifiant : Option String
  nomFamille : Option String
  nomUsage : Option String
  prenoms : Option String
  sexe : Option String
  pays : Option String
  identifiantTechnique : Option String
  contrats : List Contrat
  versements : List Versement
deriving DecidableEq, Repr

/-- `Etablissement` of parser.server.ts. -/
structure Etablissement where
  nic : Option String
  countryCode : Option String
  individus : List Individu
deriving DecidableEq, Repr

/-- The `entreprise` object. In the source the company-identity handler
builds `{siren, nic, country}` with no `etablissements` property; an absent
property is observationally equal to `[]` here because every read guards
with `|| []` and the establishment handler initializes a falsy value to
`[]` (a present empty array is truthy and also kept as is). -/
structure Entreprise where
  siren : Option String
  nic : Option String
  country : Option String
  etablissements : List Etablissement
deriving DecidableEq, Repr

/-- `Declaration` of parser.server.ts. -/
structure Declaration where
  nature : Option String
  type : Option String
  fraction : Option String
  ordre : Option String
  mois : Option String
  dateFichier : Option String
  champ : Option String
  devise : Option String
  entreprise : Option Entreprise
  errors : List String
  validStatement : Bool
deriving DecidableEq, Repr

/-- A `bloc`: mapping from rubrique code to value, last write wins. -/
def Bloc : Type := String → Option String

/-- Loop of `getBloc`: consume rows while the bloc code matches and the
sequence code is numerically non-decreasing, recording each rubrique's
value (later rows overwrite earlier ones, as JS object assignment does). -/
def getBlocGo (blocCode : String) (vc : Nat) (bloc : Bloc) :
    List DSNRow → Bloc
  | [] => bloc
  | r :: rs =>
    if r.blocCode = blocCode && vc ≤ r.valueCode then
      getBlocGo blocCode r.valueCode
        (fun k => if k = r.rubriqueCode then some r.value else bloc k) rs
    else bloc

/-- `getBloc(rows, index, blocCode)` over the row suffix starting at
`index`; the starting sequence code is the first row's. -/
def getBloc (rows : List DSNRow) (blocCode : String) : Bloc :=
  match rows with
  | [] => fun _ => none
  | r :: _ => getBlocGo blocCode r.valueCode (fun _ => none) rows

/-- The builder's advance loop: starting from the dispatched row, skip rows
while the bloc code matches and the sequence code is `≥` the stored one;
the stored code is updated to the next row's code after each step. -/
def advanceRows (blocCode : String) (vc : Nat) : List DSNRow → List DSNRow
  | [] => []
  | r :: rs =>
    if r.blocCode = blocCode && vc ≤ r.valueCode then
      advanceRows blocCode (match rs with | [] => vc | r2 :: _ => r2.valueCode) rs
    else r :: rs

/-- Replace the last element of a list, if any (`array[array.length - 1]`
mutation; the empty case is the source's logged-and-dropped branch). -/
def updateLast (f : α → α) : List α → List α
  | [] => []
  | [a] => [f a]
  | a :: b :: rest => a :: updateLast f (b :: rest)

/-- One arm of the builder's switch: process the bloc starting at `row`
(which heads `rows`) into the declaration. -/
def handleBloc (declaration : Declaration) (rows : List DSNRow) (row : DSNRow) :
    Declaration :=
  if row.blocCode = "S20.G00.05" then
    let bloc := getBloc rows "S20.G00.05"
    { declaration with
      nature := bloc "S20.G00.05.001"
      type := bloc "S20.G00.05.002"
      fraction := bloc "S20.G00.05.003"
      ordre := bloc "S20.G00.05.004"
      mois := bloc "S20.G00.05.005"
      dateFichier := bloc "S20.G00.05.007"
      champ := bloc "S20.G00.05.008"
      devise := bloc "S20.G00.05.010" }
  else if row.blocCode = "S21.G00.06" then
    let bloc := getBloc rows "S21.G00.06"
    { declaration with
      entreprise := some
        { siren := bloc "S21.G00.06.001"
          nic := bloc "S21.G00.06.002"
          country := bloc "S21.G00.06.010"
          etablissements := [] } }
  else if row.blocCode = "S21.G00.11" then
    let bloc := getBloc rows "S21.G00.11"
    let ent : Entreprise :=
      match declaration.entreprise with
      | none => { siren := none, nic := none, country := none, etablissements := [] }
      | some e => e
    let newEtablissement : Etablissement :=
      { nic := bloc "S21.G00.11.001"
        countryCode := bloc "S21.G00.11.015"
        individus := [] }
    { declaration with
      entreprise := some
        { ent with etablissements := ent.etablissements ++ [newEtablissement] } }
  else if row.blocCode = "S21.G00.30" then
    let bloc := getBloc rows "S21.G00.30"
    let individu : Individu :=
      { identifiant := bloc "S21.G00.30.001"
        nomFamille := bloc "S21.G00.30.002"
        nomUsage := bloc "S21.G00.30.003"
        prenoms := bloc "S21.G00.30.004"
        sexe := bloc "S21.G00.30.005"
        pays := none
        identifiantTechnique := bloc "S21.G00.30.020"
        contrats := []
        versements := [] }
    match declaration.entreprise with
    | none => declaration
    | some ent =>
      let etabs :=
        updateLast (fun etab => { etab with individus := etab.individus ++ [individu] })
          ent.etablissements
      { declaration with entreprise := some { ent with etablissements := etabs } }
  else if row.blocCode = "S21.G00.40" then
    let bloc := getBloc rows "S21.G00.40"
    let contrat : Contrat :=
      { dateDebut := bloc "S21.G00.40.001"
        dateFin := none
        statutConventionnel := bloc "S21.G00.40.002"
        pcsEse := bloc "S21.G00.40.004"
        complementPcsEse := bloc "S21.G00.40.005"
        nature := bloc "S21.G00.40.007"
        dispositifPolitique := bloc "S21.G00.40.008"
        numero := bloc "S21.G00.40.009"
        uniteMesure := bloc "S21.G00.40.011"
        quotiteCategorie := bloc "S21.G00.40.012"
        quotite := bloc "S21.G00.40.013"
        modaliteTemps := bloc "S21.G00.40.014" }
    match declaration.entreprise with
    | none => declaration
    | some ent =>
      let etabs :=
        updateLast (fun etab =>
            let inds :=
              updateLast (fun ind => { ind with contrats := ind.contrats ++ [contrat] })
                etab.individus
            { etab with individus := inds })
          ent.etablissements
      { declaration with entreprise := some { ent with etablissements := etabs } }
  else if row.blocCode = "S21.G00.62" then
    let bloc := getBloc rows "S21.G00.62"
    match declaration.entreprise with
    | none => declaration
    | some ent =>
      let etabs :=
        updateLast (fun etab =>
            let inds :=
              updateLast (fun ind =>
                  let cs :=
                    updateLast (fun c => { c with dateFin := bloc "S21.G00.62.001" })
                      ind.contrats
                  { ind with contrats := cs })
                etab.individus
            { etab with individus := inds })
          ent.etablissements
      { declaration with entreprise := some { ent with etablissements := etabs } }
  else
    declaration

/-- The declaration the builder starts from. -/
def initDeclaration : Declaration :=
  { nature := none, type := none, fraction := none, ordre := none
    mois := none, dateFichier := none, champ := none, devise := none
    entreprise := none, errors := [], validStatement := true }

/-- The builder's main loop, fuelled by the row count: dispatch on the
current row's bloc code, then advance past the consumed run. Each
iteration consumes at least one row, so fuel `rows.length` is never
exhausted. -/
def DSNDataReaderGo : Nat → Declaration → List DSNRow → Declaration
  | 0, d, _ => d
  | _ + 1, d, [] => d
  | fuel + 1, d, r :: rs =>
    DSNDataReaderGo fuel (handleBloc d (r :: rs) r)
      (advanceRows r.blocCode r.valueCode (r :: rs))

/-- `DSNDataReader` of parser.server.ts. -/
def DSNDataReader (rows : List DSNRow) : Declaration :=
  DSNDataReaderGo rows.length initDeclaration rows

/-- The line grammar `/^S[0-9]{2}\.G[0-9]{2}\.[0-9]{2}\.[0-9]{3},'.*'/`:
a 16-character positional key prefix followed by a quoted value; the
unanchored tail only requires one more quote somewhere on the line. -/
def dsnLineOk (cs : List Char) : Bool :=
  match cs with
  | c0 :: d1 :: d2 :: p1 :: c4 :: d3 :: d4 :: p2 :: d5 :: d6 :: p3 ::
      d7 :: d8 :: d9 :: comma :: quote :: rest =>
    c0 = 'S' && d1.isDigit && d2.isDigit && p1 = '.' && c4 = 'G' &&
    d3.isDigit && d4.isDigit && p2 = '.' && d5.isDigit && d6.isDigit &&
    p3 = '.' && d7.isDigit && d8.isDigit && d9.isDigit && comma = ',' &&
    quote = Char.ofNat 39 && rest.any (fun c => c = Char.ofNat 39)
  | _ => false

/-- `content.split(sep)` on character lists (an empty input yields one
empty field, as in JS). -/
def splitOnChar (sep : Char) : List Char → List (List Char)
  | [] => [[]]
  | c :: cs =>
    if c = sep then [] :: splitOnChar sep cs
    else
      match splitOnChar sep cs with
      | [] => [[c]]
      | l :: ls => (c :: l) :: ls

/-- Build the `DSNRow` of a matching line: `blocCode = substring(0,10)`,
`rubriqueCode = substring(0,14)`, `valueCode = parseInt(substring(11,14))`,
`value = substring(16, length-1)`. -/
def mkDsnRow (cs : List Char) : DSNRow :=
  { blocCode := String.mk (cs.take 10)
    rubriqueCode := String.mk (cs.take 14)
    valueCode := natOfDigits ((cs.drop 11).take 3)
    value := String.mk ((cs.drop 16).dropLast) }

/-- `DSNFileReader` of parser.server.ts: strip CR characters, split on
newlines, keep the lines matching the record grammar, in order. -/
def DSNFileReader (content : String) : List DSNRow :=
  let lines := splitOnChar '\n' (content.toList.filter (fun c => c ≠ '\r'))
  lines.filterMap (fun line => if dsnLineOk line then some (mkDsnRow line) else none)

/-- `hasRequiredBlocks` of conformity.server.ts: the content, split on
newlines, has at least one line starting with each of `S10.`, `S20.`,
`S21.` (the regexes `/^S10\./` etc. are anchored literal-prefix tests). -/
def hasRequiredBlocks (content : String) : Bool :=
  let lines := splitOnChar '\n' content.toList
  (lines.any (fun l => List.isPrefixOf "S10.".toList l)) &&
  (lines.any (fun l => List.isPrefixOf "S20.".toList l)) &&
  (lines.any (fun l => List.isPrefixOf "S21.".toList l))

/-- `parseDsnFile` of parser.server.ts: conformity pre-check, then full
parsing, then the structural-error check on `validStatement`. -/
def parseDsnFile (content : String) : Except String Declaration :=
  if !(hasRequiredBlocks content) then
    .error "Invalid DSN: missing required S10, S20, or S21 block."
  else
    let dataDSN := DSNFileReader content
    let declaration := DSNDataReader dataDSN
    if !declaration.validStatement then
      .error "DSN contains structural errors."
    else
      .ok declaration

/-- Spec-side: some line of the content (split on newlines) starts with the
given prefix. -/
def specHasLineWith (content : String) (p : String) : Prop :=
  ∃ l ∈ splitOnChar '\n' content.toList, List.isPrefixOf p.toList l = true

/-! ### Employee normalization (normalize.server.ts) -/

/-- `parseGender`: zero-pad the DSN sex code to two digits, then map
`"01"` to `"M"`, `"02"` to `"F"`, anything else (or a missing/empty code)
to null. -/
def parseGender (sexeCode : Option String) : Option String :=
  match sexeCode with
  | none => none
  | some code =>
    if code = "" then none
    else
      let normalized := padZero 2 code
      if normalized = "01" then some "M"
      else if normalized = "02" then some "F"
      else none

/-- `parseDsnDate`: an 8-digit `YYYYMMDD` token, rejected (null) unless the
`new Date(year, month-1, day)` round-trip check passes. The source builds
the date and compares `getFullYear/getMonth/getDate` with the parsed
components; that check succeeds exactly when no component was normalized
away, i.e. when the month is in [1, 12], the day is in
[1, daysInMonth year month], and the year is at least 100 (the JS `Date`
constructor remaps year arguments 0–99 to 1900–1999, which breaks the
round-trip). This embedding states that equivalent validity condition
directly. -/
def parseDsnDate (dsnDateStr : String) : Option DateYMD :=
  let cs := dsnDateStr.toList
  if !(cs.length = 8 && cs.all (fun c => c.isDigit)) then none
  else
    let year := natOfDigits (cs.take 4)
    let month := natOfDigits ((cs.drop 4).take 2)
    let day := natOfDigits ((cs.drop 6).take 2)
    if 100 ≤ year && 1 ≤ month && month ≤ 12 && 1 ≤ day &&
        day ≤ daysInMonth year month then
      some ⟨year, month, day⟩
    else none

/-- `normalizeEmployees` of normalize.server.ts: for every establishment
(in order), for every individual (in order), push one employee combining
the establishment's country code (`|| "unknown"`), the individual's
identity fields, and the fields of the *last* contract in the individual's
contract list (optional chaining yields nulls when the list is empty). -/
def normalizeEmployees (declaration : Declaration) : List Employee :=
  let etablissements :=
    match declaration.entreprise with
    | none => []
    | some e => e.etablissements
  etablissements.foldl
    (fun employees etablissement =>
      etablissement.individus.foldl
        (fun employees individu =>
          let contract := individu.contrats.getLast?
          employees ++
            [{ id := match individu.identifiant with
                 | none => ""
                 | some i => i
               country := match etablissement.countryCode with
                 | none => "unknown"
                 | some c => if c = "" then "unknown" else c
               birthCountry := match individu.pays with
                 | none => ""
                 | some p => p
               gender := parseGender individu.sexe
               contractStart := match contract with
                 | none => none
                 | some c =>
                   match c.dateDebut with
                   | none => none
                   | some ds => if ds = "" then none else parseDsnDate ds
               contractEnd := match contract with
                 | none => none
                 | some c =>
                   match c.dateFin with
                   | none => none
                   | some ds => if ds = "" then none else parseDsnDate ds
               pcsEse := match contract with
                 | none => none
                 | some c =>
                   match c.pcsEse with
                   | none => none
                   | some p => if p = "" then none else some p }])
        employees)
    []

/-- Spec-side: the one Employee produced for an Individual, combining the
owning Establishment's country code with the fields of the last Contract
in the Individual's contract list (all three contract-derived fields null
when that list is empty). -/
def specEmployeeOf (etablissement : Etablissement) (individu : Individu) :
    Employee :=
  let contract := individu.contrats.getLast?
  { id := match individu.identifiant with
      | none => ""
      | some i => i
    country := match etablissement.countryCode with
      | none => "unknown"
      | some c => if c = "" then "unknown" else c
    birthCountry := match individu.pays with
      | none => ""
      | some p => p
    gender := parseGender individu.sexe
    contractStart := match contract with
      | none => none
      | some c =>
        match c.dateDebut with
        | none => none
        | some ds => if ds = "" then none else parseDsnDate ds
    contractEnd := match contract with
      | none => none
      | some c =>
        match c.dateFin with
        | none => none
        | some ds => if ds = "" then none else parseDsnDate ds
    pcsEse := match contract with
      | none => none
      | some c =>
        match c.pcsEse with
        | none => none
        | some p => if p = "" then none else some p }

/-! ### Question tree and answers (types.ts, types.server.ts) -/

/-- `QuestionNode` of the question catalogue (content kept as a plain
string: the source casts the CSV cell with `as any`). -/
structure QuestionNode where
  id : String
  labelEn : String
  labelFr : Option String
  content : String
  parentId : Option String
  order : Int
  unit : Option String
  enumEn : Option (List String)
  enumFr : Option (List String)
  children : List QuestionNode
deriving Repr

/-- Answer provenance. -/
inductive AnswerSource where
  | computed
  | manual
deriving DecidableEq, Repr

/-- `Answer` of types.server.ts (the engine only ever stores numeric or
null values). -/
structure Answer where
  value : Option ℚ
  source : AnswerSource
  explanation : String
deriving DecidableEq, Repr

/-! ### Grouping and table processing (group-by-attribute.server.ts,
index.server.ts) -/

/-- The three groupable employee attributes. -/
inductive GroupAttr where
  | country
  | gender
  | pcsEse
deriving DecidableEq, Repr

/-- `emp[attribute]` (country is a non-null string on `Employee`). -/
def attrGet (emp : Employee) : GroupAttr → Option String
  | .country => some emp.country
  | .gender => emp.gender
  | .pcsEse => emp.pcsEse

/-- `String.prototype.trim` (whitespace stripping). -/
def jsTrim (cs : List Char) : List Char :=
  ((cs.dropWhile Char.isWhitespace).reverse.dropWhile Char.isWhitespace).reverse

/-- The bucket key of an employee: `"unknown"` for a missing, empty or
blank attribute value. -/
def groupKey (emp : Employee) (attr : GroupAttr) : String :=
  match attrGet emp attr with
  | none => "unknown"
  | some key => if key = "" || jsTrim key.toList = [] then "unknown" else key

/-- Insert-or-append step shared by the two grouping loops (JS
`if (!groups[key]) groups[key] = []; groups[key].push(emp)` on a record
whose entries are kept in insertion order). -/
def pushGroup (groups : List (String × List Employee)) (key : String)
    (emp : Employee) : List (String × List Employee) :=
  if groups.any (fun g => g.1 = key) then
    groups.map (fun g => if g.1 = key then (g.1, g.2 ++ [emp]) else g)
  else groups ++ [(key, [emp])]

/-- `groupByAttribute` of group-by-attribute.server.ts. -/
def groupByAttribute (employees : List Employee) (attr : GroupAttr) :
    List (String × List Employee) :=
  employees.foldl (fun groups emp => pushGroup groups (groupKey emp attr) emp) []

/-- `answers[answerId] = a` on the (insertion-ordered) answer record. -/
def recordSet (answers : List (String × Answer)) (key : String) (a : Answer) :
    List (String × Answer) :=
  if answers.any (fun p => p.1 = key) then
    answers.map (fun p => if p.1 = key then (p.1, a) else p)
  else answers ++ [(key, a)]

/-- `processCountryTable` of index.server.ts: group by country, skip the
`"unknown"` bucket, store `S1-6_05` (headcount at period end) and
`S1-6_06` (average headcount) per bucket under `{childId}_{country}`. -/
def processCountryTable (tableNode : QuestionNode) (employees : List Employee)
    (period : Period) (answers : List (String × Answer)) :
    List (String × Answer) :=
  let countryGroups := groupByAttribute employees .country
  countryGroups.foldl
    (fun answers entry =>
      if entry.1 = "unknown" then answers
      else
        tableNode.children.foldl
          (fun answers child =>
            let answerId := child.id ++ "_" ++ entry.1
            if child.id = "S1-6_05" then
              let result := computeHeadcountAtPeriodEnd entry.2 period.stop
              recordSet answers answerId
                { value := some result.value, source := .computed,
                  explanation := "Employees in country " ++ entry.1 ++ ": " ++
                    halfStr result.value }
            else if child.id = "S1-6_06" then
              let result := computeAverageHeadcount entry.2 period
              recordSet answers answerId
                { value := some result.value, source := .computed,
                  explanation := "Average employees in country " ++ entry.1 ++
                    ": " ++ halfStr result.value }
            else answers)
          answers)
    answers

/-- `processRegionTable` of index.server.ts (country used as region per the
ESRS fallback): children `S1-6_09`, `S1-6_10`. -/
def processRegionTable (tableNode : QuestionNode) (employees : List Employee)
    (period : Period) (answers : List (String × Answer)) :
    List (String × Answer) :=
  let regionGroups := groupByAttribute employees .country
  regionGroups.foldl
    (fun answers entry =>
      if entry.1 = "unknown" then answers
      else
        tableNode.children.foldl
          (fun answers child =>
            let answerId := child.id ++ "_" ++ entry.1
            if child.id = "S1-6_09" then
              let result := computeHeadcountAtPeriodEnd entry.2 period.stop
              recordSet answers answerId
                { value := some result.value, source := .computed,
                  explanation := "Employees in region " ++ entry.1 ++
                    " (country-level fallback per ESRS S1-6-3): " ++
                    halfStr result.value }
            else if child.id = "S1-6_10" then
              let result := computeAverageHeadcount entry.2 period
              recordSet answers answerId
                { value := some result.value, source := .computed,
                  explanation := "Average employees in region " ++ entry.1 ++
                    " (country-level fallback): " ++ halfStr result.value }
            else answers)
          answers)
    answers

/-- `processCategoryTable` of index.server.ts: group by PCS-ESE code,
children `S1-6_19`, `S1-6_20`. -/
def processCategoryTable (tableNode : QuestionNode) (employees : List Employee)
    (period : Period) (answers : List (String × Answer)) :
    List (String × Answer) :=
  let categoryGroups := groupByAttribute employees .pcsEse
  categoryGroups.foldl
    (fun answers entry =>
      if entry.1 = "unknown" then answers
      else
        tableNode.children.foldl
          (fun answers child =>
            let answerId := child.id ++ "_" ++ entry.1
            if child.id = "S1-6_19" then
              let result := computeHeadcountAtPeriodEnd entry.2 period.stop
              recordSet answers answerId
                { value := some result.value, source := .computed,
                  explanation := "Employees in professional category " ++
                    entry.1 ++ ": " ++ halfStr result.value }
            else if child.id = "S1-6_20" then
              let result := computeAverageHeadcount entry.2 period
              recordSet answers answerId
                { value := some result.value, source := .computed,
                  explanation := "Average employees in professional category " ++
                    entry.1 ++ ": " ++ halfStr result.value }
            else answers)
          answers)
    answers

/-- The composite bucket key `{gender}_{pcsEse}` of an employee
(`emp.gender || "unknown"`, `emp.pcsEse || "unknown"`). -/
def compositeGenderKey (emp : Employee) : String :=
  (match emp.gender with
   | none => "unknown"
   | some g => if g = "" then "unknown" else g) ++ "_" ++
  (match emp.pcsEse with
   | none => "unknown"
   | some p => if p = "" then "unknown" else p)

/-- `processContractGenderTable` of index.server.ts: group by the composite
gender/PCS-ESE key, skip only the `"unknown_unknown"` bucket, store
`K_718` (headcount at period end) and `K_719` (average headcount) per
bucket under `{childId}_{gender}_{pcsEse}`. -/
def processContractGenderTable (tableNode : QuestionNode)
    (employees : List Employee) (period : Period)
    (answers : List (String × Answer)) : List (String × Answer) :=
  let contractGenderGroups :=
    employees.foldl (fun groups emp => pushGroup groups (compositeGenderKey emp) emp) []
  contractGenderGroups.foldl
    (fun answers entry =>
      if entry.1 = "unknown_unknown" then answers
      else
        tableNode.children.foldl
          (fun answers child =>
            let answerId := child.id ++ "_" ++ entry.1
            if child.id = "K_718" then
              let result := computeHeadcountAtPeriodEnd entry.2 period.stop
              recordSet answers answerId
                { value := some result.value, source := .computed,
                  explanation := "Employees with gender/contract " ++ entry.1 ++
                    ": " ++ halfStr result.value }
            else if child.id = "K_719" then
              let result := computeAverageHeadcount entry.2 period
              recordSet answers answerId
                { value := some result.value, source := .computed,
                  explanation := "Average employees with gender/contract " ++
                    entry.1 ++ ": " ++ halfStr result.value }
            else answers)
          answers)
    answers

/-! ### Question catalogue loader (loader.server.ts) -/

/-- `parseInt(s, 10) || 0`: optional sign and leading digits after
whitespace; anything else (NaN) collapses to 0 through `|| 0`. -/
def jsParseIntOr0 (s : String) : Int :=
  let cs := s.toList.dropWhile Char.isWhitespace
  match cs with
  | '-' :: rest =>
    let ds := rest.takeWhile Char.isDigit
    if ds = [] then 0 else -(natOfDigits ds : Int)
  | '+' :: rest =>
    let ds := rest.takeWhile Char.isDigit
    if ds = [] then 0 else (natOfDigits ds : Int)
  | _ =>
    let ds := cs.takeWhile Char.isDigit
    if ds = [] then 0 else (natOfDigits ds : Int)

/-- `parseCsvLine`: empty for a blank line, else split on `;` and trim
every field. -/
def parseCsvLine (line : String) : List String :=
  if jsTrim line.toList = [] then []
  else (splitOnChar ';' line.toList).map (fun f => String.mk (jsTrim f))

/-- `createRowObject`: assign `row[header] = values[index] ?? ""` in header
order (a duplicated header keeps its last value). -/
def createRowObject (headers values : List String) : String → String :=
  headers.enum.foldl
    (fun row iv => fun k => if k = iv.2 then values.getD iv.1 "" else row k)
    (fun _ => "")

/-- The optional comma-separated enum cell: absent when blank, else split,
trimmed and with empty entries filtered out. -/
def parseEnumCell (cell : String) : Option (List String) :=
  if cell = "" then none
  else some
    (((splitOnChar ',' cell.toList).map (fun f => String.mk (jsTrim f))).filter
      (fun f => f ≠ ""))

/-- `createQuestionNode`: build the flat node of one CSV row (`|| undefined`
turns empty optional cells into absent values; `parseInt(..) || 0` gives
order 0 for a non-numeric cell; children start empty). -/
def createQuestionNode (row : String → String) : QuestionNode :=
  { id := row "ID"
    labelEn := row "question label en"
    labelFr := if row "question label fr" = "" then none
               else some (row "question label fr")
    content := row "content"
    parentId := if row "relatedQuestion ID" = "" then none
                else some (row "relatedQuestion ID")
    order := jsParseIntOr0 (row "order")
    unit := if row "unit" = "" then none else some (row "unit")
    enumEn := parseEnumCell (row "enum en")
    enumFr := parseEnumCell (row "enum fr")
    children := [] }

/-- Row loop of the loader: each data line must have exactly the header's
field count, else the load fails naming the 1-indexed data row. -/
def rowsToNodes (headers : List String) : Nat → List (List Char) →
    Except String (List QuestionNode)
  | _, [] => .ok []
  | i, l :: ls =>
    let values := parseCsvLine (String.mk l)
    if values.length ≠ headers.length then
      .error ("Row " ++ toString i ++ ": expected " ++
        toString headers.length ++ " fields, got " ++ toString values.length)
    else
      match rowsToNodes headers (i + 1) ls with
      | .error e => .error e
      | .ok rest => .ok (createQuestionNode (createRowObject headers values) :: rest)

/-- The CSV stage of `loadQuestionsFromCsv` (after `readFileSync`): trim
and drop blank lines, require a header plus at least one data row, require
the columns ID, question label en, content and order, then parse every
data row into a flat `QuestionNode`. -/
def loadQuestionsFlat (fileContent : String) : Except String (List QuestionNode) :=
  let lines := ((splitOnChar '\n' fileContent.toList).map jsTrim).filter
    (fun l => l ≠ [])
  match lines with
  | [] => .error "CSV must contain header and at least one data row"
  | hd :: dataLines =>
    if dataLines.length = 0 then
      .error "CSV must contain header and at least one data row"
    else
      let headers := parseCsvLine (String.mk hd)
      if !headers.contains "ID" then
        .error "Missing required CSV column: \x22ID\x22"
      else if !headers.contains "question label en" then
        .error "Missing required CSV column: \x22question label en\x22"
      else if !headers.contains "content" then
        .error "Missing required CSV column: \x22content\x22"
      else if !headers.contains "order" then
        .error "Missing required CSV column: \x22order\x22"
      else
        rowsToNodes headers 1 dataLines

/-- Stable insertion into a list ordered ascending by `order`: the new
element goes after every element with a strictly smaller order and before
the rest, so elements with the same order keep their relative position. -/
def insertByOrder (x : QuestionNode) : List QuestionNode → List QuestionNode
  | [] => [x]
  | y :: ys =>
    if y.order < x.order then y :: insertByOrder x ys
    else x :: y :: ys

/-- Stable sort by the `order` field, as `Array.prototype.sort` with the
comparator `(a, b) => a.order - b.order` (stable per ES2019). -/
def insSortByOrder : List QuestionNode → List QuestionNode
  | [] => []
  | x :: xs => insertByOrder x (insSortByOrder xs)

/-- `sortChildren`: recursively sort every node's children by `order`.
Fuelled to stay structurally recursive; the forest builder passes fuel
exceeding the built depth, so the base case is never reached there. -/
def sortForest : Nat → QuestionNode → QuestionNode
  | 0, q => q
  | fuel + 1, q =>
    { q with children := (insSortByOrder q.children).map (fun c => sortForest fuel c) }

/-- The ids present in the flat list (the key set of `questionMap`). -/
def idsOf (flat : List QuestionNode) : List String :=
  flat.map (fun q => q.id)

/-- `q.parentId && questionMap.has(q.parentId)`: the node attaches to a
parent instead of becoming a root. -/
def isAttachable (flat : List QuestionNode) (q : QuestionNode) : Bool :=
  match q.parentId with
  | none => false
  | some pid => (idsOf flat).contains pid

/-- The index of the node `questionMap.get(i)` refers to: the last index
carrying the id (later `Map.set` calls override earlier ones). -/
def lastIdxWith (flatE : List (Nat × QuestionNode)) (i : String) : Option Nat :=
  ((flatE.filter (fun kq => kq.2.id = i)).map (fun kq => kq.1)).getLast?

/-- The entries pushed (in source order) into the children of the node at
index `j`: entries whose parent id resolves, through the map, to index
`j`. -/
def childEntriesOf (flatE : List (Nat × QuestionNode)) (j : Nat) :
    List (Nat × QuestionNode) :=
  flatE.filter (fun kq =>
    match kq.2.parentId with
    | none => false
    | some pid => lastIdxWith flatE pid = some j)

/-- Build the raw (unsorted) tree under the entry at index `jq.1`,
fuelled by the size of the flat list (attachment depth is bounded by it:
every node has at most one parent entry, so paths from roots never
repeat). -/
def buildNode (flatE : List (Nat × QuestionNode)) :
    Nat → Nat × QuestionNode → QuestionNode
  | 0, jq => jq.2
  | fuel + 1, jq =>
    { jq.2 with children :=
        (childEntriesOf flatE jq.1).map (fun kq => buildNode flatE fuel kq) }

/-- Tree assembly of `loadQuestionsFromCsv`: every node indexed by id, each
node attached to its declared parent when present (else a root, in source
order), then every node's children sorted recursively by `order`. -/
def buildForest (flat : List QuestionNode) : List QuestionNode :=
  let flatE := flat.enum
  let fuel := flat.length + 1
  (flatE.filter (fun kq => !(isAttachable flat kq.2))).map
    (fun kq => sortForest fuel (buildNode flatE fuel kq))

/-- `loadQuestionsFromCsv` minus the file read: CSV stage then tree
assembly. -/
def loadQuestionsFromContent (fileContent : String) :
    Except String (List QuestionNode) :=
  match loadQuestionsFlat fileContent with
  | .error e => .error e
  | .ok flatQuestions => .ok (buildForest flatQuestions)

/-- Every sibling list of the tree, recursively, is sorted ascending by
`order`. -/
inductive SortedDeep : QuestionNode → Prop where
  | mk (q : QuestionNode) :
      q.children.Pairwise (fun a b => a.order ≤ b.order) →
      (∀ c ∈ q.children, SortedDeep c) →
      SortedDeep q

/-! Concrete sample data used by counterexamples and witnesses. -/

/-- The reporting period November 2025. -/
def sampleNov25 : Period := ⟨⟨2025, 11, 1⟩, ⟨2025, 11, 30⟩⟩

/-- An employee whose contract ends exactly on the period's end date. -/
def empEndsAtStop : Employee :=
  ⟨"e1", "FR", "", some "M", some ⟨2025, 10, 1⟩, some ⟨2025, 11, 30⟩, none⟩

/-- An employee whose contract ends on 2025-06-01. -/
def empEndsJun1 : Employee :=
  ⟨"e2", "FR", "", some "F", some ⟨2025, 1, 1⟩, some ⟨2025, 6, 1⟩, none⟩

/-- An employee with an open contract started on 2025-01-01. -/
def empOpen : Employee :=
  ⟨"e3", "FR", "", some "M", some ⟨2025, 1, 1⟩, none, none⟩

/-- A flat root node with order 2. -/
def qRootA : QuestionNode :=
  ⟨"A", "a", none, "Table", none, 2, none, none, none, []⟩

/-- A flat root node with order 1, after the order-2 root in source order. -/
def qRootB : QuestionNode :=
  ⟨"B", "b", none, "Table", none, 1, none, none, none, []⟩

/-- A two-root CSV whose roots appear in descending order. -/
def csvSample : String :=
  "ID;question label en;content;order\nA;a;Table;2\nB;b;Table;1"

/-- The flat nodes parsed from `csvSample`. -/
def flatSample : List QuestionNode := [qRootA, qRootB]

/-- A sample establishment with no individuals. -/
def etabSample : Etablissement := ⟨some "00011", some "FR", []⟩

/-- A sample individual whose contract list is empty. -/
def indNoContracts : Individu :=
  ⟨some "id1", none, none, none, some "01", none, none, [], []⟩

/-- The headcount child of the gender/contract table. -/
def childK718 : QuestionNode :=
  ⟨"K_718", "Number of employees (end of period)", none, "number",
    some "S1-6_07", 0, none, none, none, []⟩

/-- The gender/contract table node with its headcount child. -/
def nodeGenderTable : QuestionNode :=
  ⟨"S1-6_07", "Employees by gender and contract", none, "Table",
    none, 0, none, none, none, [childK718]⟩

/-- The headcount child of the country table. -/
def childS1605 : QuestionNode :=
  ⟨"S1-6_05", "Number of employees (end of period)", none, "number",
    some "S1-6_04", 0, none, none, none, []⟩

/-- The country table node with its headcount child. -/
def nodeCountryTable : QuestionNode :=
  ⟨"S1-6_04", "Employees by country", none, "Table",
    none, 0, none, none, none, [childS1605]⟩

/-- An employee with a gender but no job-classification code. -/
def empGenderOnly : Employee := ⟨"e4", "FR", "", some "M", none, none, none⟩

/-- A DSN establishment row (bloc S21.G00.11). -/
def rowEtab : DSNRow := ⟨"S21.G00.11", "S21.G00.11.001", 1, "00011"⟩

/-- A DSN company-identity row (bloc S21.G00.06). -/
def rowCompany : DSNRow := ⟨"S21.G00.06", "S21.G00.06.001", 1, "123456789"⟩

/-! ### Theorems -/

theorem dateLe_refl (a : DateYMD) : dateLe a a = true := by
  simp [dateLe]

theorem dateLe_total (a b : DateYMD) : dateLe a b = true ∨ dateLe b a = true := by
  unfold dateLe
  split_ifs
  all_goals simp_all
  all_goals omega

theorem dateLe_antisymm {a b : DateYMD} (h1 : dateLe a b = true)
    (h2 : dateLe b a = true) : a = b := by
  unfold dateLe at h1 h2
  cases a with
  | mk ay am ad =>
    cases b with
    | mk by' bm bd =>
      simp only at h1 h2
      split_ifs at h1 h2 <;> simp_all <;> omega

/-- For dates `d ≠ e`, the non-strict and strict comparisons agree. -/
theorem dateLe_eq_dateLt_of_ne {d e : DateYMD} (h : e ≠ d) :
    dateLe d e = dateLt d e := by
  unfold dateLt
  rcases dateLe_total d e with h1 | h1
  · have h2 : dateLe e d = false := by
      by_contra hc
      exact h (dateLe_antisymm (by simpa using hc) h1)
    simp [h1, h2]
  · by_cases h2 : dateLe d e = true
    · exact absurd (dateLe_antisymm h1 h2) h
    · have h3 : dateLe e d = true := h1
      simp [h3] at *
      simpa using h2

/-- `jsToFixed1` is the identity on half-integers: the arithmetic mean of two
natural numbers survives rounding to one decimal place unchanged. -/
theorem jsToFixed1_mean_nat (n m : ℕ) :
    jsToFixed1 (((n : ℚ) + (m : ℚ)) / 2) = ((n : ℚ) + (m : ℚ)) / 2 := by
  unfold jsToFixed1 jsRound
  have h : ((n : ℚ) + (m : ℚ)) / 2 * 10 = ((5 * (n + m) : ℤ) : ℚ) := by
    push_cast
    ring
  rw [h, Int.floor_int_add]
  norm_num
  ring

/-- C1 (counterexample): for the period Nov 2025 and a single employee whose
contract ends exactly on the period's end date, `computeAverageHeadcount`
returns 1, while the mean of `computeHeadcountAtPeriodStart` at the start
date and `computeHeadcountAtPeriodEnd` at the end date is 0.5 — the claimed
equation fails because the average's end-of-period count uses `contractEnd
>= date` where `computeHeadcountAtPeriodEnd` uses `contractEnd > date`. -/
theorem C1_counterexample :
    (computeAverageHeadcount [empEndsAtStop] sampleNov25).value ≠
      jsToFixed1
        (((computeHeadcountAtPeriodStart [empEndsAtStop] sampleNov25.start).value +
          (computeHeadcountAtPeriodEnd [empEndsAtStop] sampleNov25.stop).value) / 2) := by
  norm_num [computeAverageHeadcount, computeHeadcountAtPeriodStart,
    computeHeadcountAtPeriodEnd, jsToFixed1, jsRound, dateLe, dateLt,
    sampleNov25, empEndsAtStop, List.filter]

/-- C1 (amended): `computeAverageHeadcount` returns the arithmetic mean of
the value of `computeHeadcountAtPeriodStart` evaluated at the period's start
date and the value of the same start-style count (contract end null or `≥`
the date) evaluated at the period's end date, rounded to one decimal place;
the rounding is exact since the mean of two integers is a half-integer. -/
theorem C1_average_is_mean_of_start_style_counts (employees : List Employee)
    (period : Period) :
    (computeAverageHeadcount employees period).value =
      jsToFixed1 (((computeHeadcountAtPeriodStart employees period.start).value +
        (computeHeadcountAtPeriodStart employees period.stop).value) / 2) ∧
    (computeAverageHeadcount employees period).value =
      ((computeHeadcountAtPeriodStart employees period.start).value +
        (computeHeadcountAtPeriodStart employees period.stop).value) / 2 := by
  constructor
  · rfl
  · exact jsToFixed1_mean_nat _ _

/-- C2 (counterexample): at the date 2025-06-01 and a single employee whose
contract ends on 2025-06-01, `computeHeadcountAtPeriodStart` counts the
employee (its predicate uses `contractEnd >= date`) while
`computeHeadcountAtPeriodEnd` does not (`contractEnd > date`), so the two
strategies do not evaluate the same active-contract predicate and return
different values on the same list and date. -/
theorem C2_counterexample :
    (computeHeadcountAtPeriodStart [empEndsJun1] ⟨2025, 6, 1⟩).value ≠
      (computeHeadcountAtPeriodEnd [empEndsJun1] ⟨2025, 6, 1⟩).value := by
  norm_num [computeHeadcountAtPeriodStart, computeHeadcountAtPeriodEnd,
    dateLe, dateLt, empEndsJun1, List.filter]

/-- C2 (amended): `computeHeadcountAtPeriodEnd` counts employees whose
contract start is non-null and `≤ d` and whose contract end is null or
strictly `> d`; `computeHeadcountAtPeriodStart` counts with the non-strict
variant (`contract end null or ≥ d`); the two agree on every list in which
no employee's contract ends exactly on `d`. -/
theorem C2_start_lenient_end_strict (employees : List Employee) (d : DateYMD) :
    (computeHeadcountAtPeriodEnd employees d).value =
      ((employees.filter (specActiveStrict d)).length : ℚ) ∧
    (computeHeadcountAtPeriodStart employees d).value =
      ((employees.filter (specActiveLenient d)).length : ℚ) ∧
    ((∀ emp ∈ employees, emp.contractEnd ≠ some d) →
      (computeHeadcountAtPeriodStart employees d).value =
        (computeHeadcountAtPeriodEnd employees d).value) := by
  have hstrict : (computeHeadcountAtPeriodEnd employees d).value =
      ((employees.filter (specActiveStrict d)).length : ℚ) := by
    simp only [computeHeadcountAtPeriodEnd]
    norm_cast
    congr 1
    apply List.filter_congr
    intro emp _
    cases hs : emp.contractStart with
    | none => simp [specActiveStrict, hs]
    | some s =>
      cases he : emp.contractEnd with
      | none =>
        simp only [specActiveStrict, hs, he, dateLt]
        cases hsd : dateLe s d <;> simp [hsd]
      | some e =>
        simp only [specActiveStrict, hs, he, dateLt]
        cases hsd : dateLe s d <;> simp [hsd]
  refine ⟨hstrict, rfl, ?_⟩
  intro h
  have hlen : employees.filter (specActiveLenient d) =
      employees.filter (specActiveStrict d) := by
    apply List.filter_congr
    intro emp hmem
    cases hs : emp.contractStart with
    | none => simp [specActiveLenient, specActiveStrict, hs]
    | some s =>
      cases he : emp.contractEnd with
      | none => simp [specActiveLenient, specActiveStrict, hs, he]
      | some e =>
        have hne : e ≠ d := by
          intro hed
          exact h emp hmem (by rw [he, hed])
        simp [specActiveLenient, specActiveStrict, hs, he,
          dateLe_eq_dateLt_of_ne hne]
  have hlenient : (computeHeadcountAtPeriodStart employees d).value =
      ((employees.filter (specActiveLenient d)).length : ℚ) := rfl
  rw [hlenient, hlen, hstrict]

/-- C2 (witness): the amended equality instantiated on an employee with an
open-ended contract, where the no-contract-ends-on-`d` hypothesis holds. -/
theorem C2_start_lenient_end_strict_witness :
    (computeHeadcountAtPeriodStart [empOpen] ⟨2025, 6, 1⟩).value =
      (computeHeadcountAtPeriodEnd [empOpen] ⟨2025, 6, 1⟩).value :=
  (C2_start_lenient_end_strict [empOpen] ⟨2025, 6, 1⟩).2.2 (by decide)

/-- C3: `computeTurnoverRate` returns the number of employees whose contract
end date lies within the period (inclusive), divided by the value of
`computeHeadcountAtPeriodStart` at the period's start date, times 100,
rounded to the nearest integer (`Math.round`); and it returns exactly 0
whenever that start headcount is 0, with no division performed there. -/
theorem C3_turnover_rate_formula (employees : List Employee) (period : Period) :
    (computeTurnoverRate employees period).value =
      (if (computeHeadcountAtPeriodStart employees period.start).value = 0 then 0
       else (jsRound (((employees.filter (specLeaver period)).length : ℚ) /
         (computeHeadcountAtPeriodStart employees period.start).value * 100) : ℚ)) ∧
    ((computeHeadcountAtPeriodStart employees period.start).value = 0 →
      (computeTurnoverRate employees period).value = 0) := by
  have hform : (computeTurnoverRate employees period).value =
      (if (computeHeadcountAtPeriodStart employees period.start).value = 0 then 0
       else (jsRound (((employees.filter (specLeaver period)).length : ℚ) /
         (computeHeadcountAtPeriodStart employees period.start).value * 100) : ℚ)) := by
    unfold computeTurnoverRate
    by_cases h : (computeHeadcountAtPeriodStart employees period.start).value = 0
    · simp only [h, if_true, if_pos rfl]
    · simp only [h, if_false, if_neg h]
      rfl
  refine ⟨hform, ?_⟩
  intro h
  rw [hform, if_pos h]

/-- C3 (witness): on the empty employee list the start headcount is 0 and
the turnover rate is exactly 0. -/
theorem C3_turnover_rate_formula_witness :
    (computeTurnoverRate [] sampleNov25).value = 0 :=
  (C3_turnover_rate_formula [] sampleNov25).2
    (by simp [computeHeadcountAtPeriodStart])

/-- C5 (counterexample): the token "2025013" is numeric but has seven
digits, neither six nor eight, so by the claim `extractReportingPeriod`
must throw; the code's regex `/^\d{6,8}$/` accepts it and returns the
January 2025 month range built from its first six digits. -/
theorem C5_counterexample :
    ("2025013".toList.length = 7) ∧
    extractReportingPeriod (some "2025013") =
      .ok ⟨⟨2025, 1, 1⟩, ⟨2025, 1, 31⟩⟩ :=
  ⟨by decide, by rfl⟩

/-- C5 (amended): `extractReportingPeriod` succeeds exactly when the period
field is present, is a numeric token of six to eight digits, and its first
six digits encode a year in [1900, 2100] and a month in [1, 12] (it throws a
descriptive error otherwise); every accepted token yields the inclusive
calendar-month range [first day, last day] of the year+month read from the
token's first six digits, with the last day computed by calendar arithmetic
that handles leap years. -/
theorem C5_period_range_amended (mois : Option String) :
    (extractReportingPeriod mois).isOk = specPeriodAccept mois ∧
    (∀ s, mois = some s → specPeriodAccept mois = true →
      extractReportingPeriod mois =
        .ok ⟨⟨specYear s, specMonth s, 1⟩,
          ⟨specYear s, specMonth s, daysInMonth (specYear s) (specMonth s)⟩⟩) := by
  cases mois with
  | none =>
    refine ⟨rfl, ?_⟩
    intro s h
    cases h
  | some s =>
    have h1 : ((if s.toList.length = 8 then s.toList.take 6 else s.toList).take 4) =
        s.toList.take 4 := by
      split
      · rw [List.take_take]
        norm_num
      · rfl
    have h2 : (((if s.toList.length = 8 then s.toList.take 6 else s.toList).drop 4).take 2) =
        (s.toList.drop 4).take 2 := by
      split
      · rw [List.drop_take, List.take_take]
        norm_num
      · rfl
    by_cases hf : periodFormatOk s.toList = true
    · by_cases hr : (1900 ≤ specYear s && specYear s ≤ 2100 &&
          1 ≤ specMonth s && specMonth s ≤ 12) = true
      · have hok : extractReportingPeriod (some s) =
            .ok ⟨⟨specYear s, specMonth s, 1⟩,
              ⟨specYear s, specMonth s, daysInMonth (specYear s) (specMonth s)⟩⟩ := by
          have hyear : 1900 ≤ specYear s ∧ specYear s ≤ 2100 ∧
              1 ≤ specMonth s ∧ specMonth s ≤ 12 := by
            simpa [Bool.and_eq_true, decide_eq_true_eq, and_assoc] using hr
          unfold extractReportingPeriod
          simp only [hf, if_true]
          rw [h1, h2]
          rw [show natOfDigits (s.toList.take 4) = specYear s from rfl,
            show natOfDigits ((s.toList.drop 4).take 2) = specMonth s from rfl]
          have hcond : (specYear s < 1900 || specYear s > 2100 ||
              ((specMonth s : Int) - 1) < 0 || ((specMonth s : Int) - 1) > 11) = false := by
            simp only [Bool.or_eq_false_iff, decide_eq_false_iff_not, not_lt, not_le]
            omega
          simp only [hcond, Bool.false_eq_true, if_false]
          have hm : (((specMonth s : Int) - 1) + 1).toNat = specMonth s := by
            omega
          rw [hm]
          rfl
        refine ⟨?_, ?_⟩
        · rw [hok]
          have hfd : periodFormatOk s.data = true := hf
          simp [specPeriodAccept, hfd, hr, Except.isOk, Except.toBool]
        · intro s' hss hacc
          injection hss with hss
          subst hss
          exact hok
      · have hr' : (1900 ≤ specYear s && specYear s ≤ 2100 &&
            1 ≤ specMonth s && specMonth s ≤ 12) = false :=
          eq_false_of_ne_true hr
        have herr : (extractReportingPeriod (some s)).isOk = false := by
          unfold extractReportingPeriod
          simp only [hf, if_true]
          rw [h1, h2]
          rw [show natOfDigits (s.toList.take 4) = specYear s from rfl,
            show natOfDigits ((s.toList.drop 4).take 2) = specMonth s from rfl]
          have hcond : (specYear s < 1900 || specYear s > 2100 ||
              ((specMonth s : Int) - 1) < 0 || ((specMonth s : Int) - 1) > 11) = true := by
            simp only [Bool.and_eq_true, decide_eq_true_eq] at hr
            simp only [Bool.or_eq_true, decide_eq_true_eq]
            omega
          simp only [hcond, if_true]
          rfl
        refine ⟨?_, ?_⟩
        · rw [herr]
          have : specPeriodAccept (some s) = false := by
            simp only [specPeriodAccept]
            rw [hr']
            simp
          rw [this]
        · intro s' hss hacc
          injection hss with hss
          subst hss
          simp only [specPeriodAccept] at hacc
          rw [hr'] at hacc
          simp at hacc
    · have hfFalse : periodFormatOk s.toList = false :=
        eq_false_of_ne_true hf
      have herr : (extractReportingPeriod (some s)).isOk = false := by
        unfold extractReportingPeriod
        simp only [hfFalse, Bool.false_eq_true, if_false]
        rfl
      refine ⟨?_, ?_⟩
      · rw [herr]
        have hsp : specPeriodAccept (some s) = false := by
          simp only [specPeriodAccept]
          rw [hfFalse]
          simp
        rw [hsp]
      · intro s' hss hacc
        injection hss with hss
        subst hss
        simp only [specPeriodAccept] at hacc
        rw [hfFalse] at hacc
        simp at hacc

/-- C5 (witness): the amended theorem applied to the 6-digit token "202402"
returns the leap-year February 2024 range, ending on day 29. -/
theorem C5_period_range_amended_witness :
    extractReportingPeriod (some "202402") =
      .ok ⟨⟨2024, 2, 1⟩, ⟨2024, 2, 29⟩⟩ := by
  have h := (C5_period_range_amended (some "202402")).2 "202402" rfl (by decide)
  exact h.trans (by rfl)

/-- The builder's dispatch never touches `validStatement`. -/
theorem handleBloc_validStatement (d : Declaration) (rows : List DSNRow)
    (r : DSNRow) : (handleBloc d rows r).validStatement = d.validStatement := by
  unfold handleBloc
  split_ifs <;> try rfl
  all_goals cases hde : d.entreprise <;> rfl

/-- The builder's loop preserves `validStatement` for any fuel. -/
theorem DSNDataReaderGo_validStatement (fuel : Nat) :
    ∀ (d : Declaration) (rows : List DSNRow),
      (DSNDataReaderGo fuel d rows).validStatement = d.validStatement := by
  induction fuel with
  | zero => intro d rows; rfl
  | succ n ih =>
    intro d rows
    cases rows with
    | nil => rfl
    | cons r rs =>
      simp only [DSNDataReaderGo]
      rw [ih, handleBloc_validStatement]

/-- `parseDsnFile` reduces to the conformity check: the structural-error
branch is never taken because the builder always returns
`validStatement = true`. -/
theorem parseDsnFile_characterization (content : String) :
    parseDsnFile content =
      if hasRequiredBlocks content then
        .ok (DSNDataReader (DSNFileReader content))
      else .error "Invalid DSN: missing required S10, S20, or S21 block." := by
  unfold parseDsnFile
  by_cases h : hasRequiredBlocks content = true
  · have hv : (DSNDataReader (DSNFileReader content)).validStatement = true :=
      DSNDataReaderGo_validStatement _ _ _
    have hvGo : (DSNDataReaderGo (DSNFileReader content).length initDeclaration
        (DSNFileReader content)).validStatement = true :=
      DSNDataReaderGo_validStatement _ _ _
    simp [h, hv, hvGo]
  · have h' : hasRequiredBlocks content = false := eq_false_of_ne_true h
    simp [h']

/-- C9: for every input row sequence the Declaration built by
`DSNDataReader` has `validStatement = true` (no block handler sets it
false), so once the conformity pre-check has passed, `parseDsnFile` returns
the parsed declaration and its "DSN contains structural errors" branch is
unreachable. -/
theorem C9_validStatement_always_true :
    (∀ rows, (DSNDataReader rows).validStatement = true) ∧
    (∀ content, parseDsnFile content =
      if hasRequiredBlocks content then
        .ok (DSNDataReader (DSNFileReader content))
      else .error "Invalid DSN: missing required S10, S20, or S21 block.") :=
  ⟨fun _ => DSNDataReaderGo_validStatement _ _ _,
   fun content => parseDsnFile_characterization content⟩

/-- C6: `parseDsnFile` rejects the content with a descriptive error if and
only if one of the case-sensitive line prefixes `S10.`, `S20.`, `S21.`
appears on no line (the conformity pre-check; by C9's invariant no other
error exit exists, so the error branch is decided before and independently
of block parsing); in particular a content with no line prefixed `S21.`
always fails. -/
theorem C6_conformity_rejects_iff (content : String) :
    ((∃ e, parseDsnFile content = .error e) ↔
      ¬(specHasLineWith content "S10." ∧ specHasLineWith content "S20." ∧
        specHasLineWith content "S21.")) ∧
    ((∀ l ∈ splitOnChar '\n' content.toList,
        ¬(List.isPrefixOf "S21.".toList l = true)) →
      ∃ e, parseDsnFile content = .error e) := by
  have hchar : hasRequiredBlocks content = true ↔
      (specHasLineWith content "S10." ∧ specHasLineWith content "S20." ∧
        specHasLineWith content "S21.") := by
    unfold hasRequiredBlocks specHasLineWith
    simp [List.any_eq_true, and_assoc]
  have hmain : (∃ e, parseDsnFile content = .error e) ↔
      ¬(specHasLineWith content "S10." ∧ specHasLineWith content "S20." ∧
        specHasLineWith content "S21.") := by
    rw [← hchar]
    constructor
    · rintro ⟨e, he⟩ hcontra
      rw [parseDsnFile_characterization, if_pos hcontra] at he
      cases he
    · intro hn
      refine ⟨"Invalid DSN: missing required S10, S20, or S21 block.", ?_⟩
      rw [parseDsnFile_characterization,
        if_neg (by simpa using eq_false_of_ne_true hn)]
  refine ⟨hmain, ?_⟩
  intro h21
  apply hmain.mpr
  rintro ⟨_, _, l, hl, hp⟩
  exact h21 l hl hp

/-- C6 (witness): a content whose lines are prefixed `S10.` and `S20.` but
never `S21.` is rejected. -/
theorem C6_conformity_rejects_iff_witness :
    ∃ e, parseDsnFile "S10.x\nS20.x" = .error e :=
  (C6_conformity_rejects_iff "S10.x\nS20.x").2 (by decide)

/-- C8 (counterexample): after building one establishment from an
`S21.G00.11` row, processing a company-identity `S21.G00.06` row replaces
the whole `entreprise` object: the previously built establishment list
becomes empty (while the parsed siren is attached), so the rest of the
Declaration is not preserved. -/
theorem C8_counterexample :
    ((DSNDataReader [rowEtab]).entreprise.map
      (fun e => e.etablissements.length) = some 1) ∧
    ((DSNDataReader [rowEtab, rowCompany]).entreprise.map
      (fun e => e.etablissements.length) = some 0) ∧
    ((DSNDataReader [rowEtab, rowCompany]).entreprise.map
      (fun e => e.siren) = some (some "123456789")) := by
  refine ⟨?_, ?_, ?_⟩ <;> decide

/-- C8 (amended): processing a company-identity bloc sets `entreprise` to a
fresh object holding exactly the siren, nic and country read from the bloc
and an empty establishment list; the declaration's scalar header fields,
`errors` and `validStatement` are unchanged, but previously built
establishments (with their individuals and contracts) are discarded, not
preserved. -/
theorem C8_company_block_replaces_entreprise (d : Declaration)
    (rows : List DSNRow) (r : DSNRow) (h : r.blocCode = "S21.G00.06") :
    handleBloc d rows r =
      { d with
        entreprise := some
          { siren := getBloc rows "S21.G00.06" "S21.G00.06.001"
            nic := getBloc rows "S21.G00.06" "S21.G00.06.002"
            country := getBloc rows "S21.G00.06" "S21.G00.06.010"
            etablissements := [] } } := by
  unfold handleBloc
  rw [h]
  rw [if_neg (by decide), if_pos rfl]

/-- C8 (witness): the amended replacement equation evaluated on a concrete
company-identity row against the initial declaration. -/
theorem C8_company_block_replaces_entreprise_witness :
    handleBloc initDeclaration [rowCompany] rowCompany =
      { initDeclaration with
        entreprise := some
          { siren := some "123456789"
            nic := none
            country := none
            etablissements := [] } } := by
  have h := C8_company_block_replaces_entreprise initDeclaration
    [rowCompany] rowCompany (by decide)
  exact h.trans (by decide)

/-- Folding an append-one-element body equals appending the mapped list. -/
theorem foldl_append_singleton {α β : Type} (f : α → β) (xs : List α) :
    ∀ acc : List β, xs.foldl (fun a x => a ++ [f x]) acc = acc ++ xs.map f := by
  induction xs with
  | nil => intro acc; simp
  | cons x xs ih =>
    intro acc
    simp only [List.foldl_cons, List.map_cons, ih]
    simp

/-- C10: `normalizeEmployees` returns exactly one Employee per Individual
across all establishments, in establishment-then-individual order — the
flat map of `specEmployeeOf`, which combines the owning establishment's
country code with the fields of the last Contract of the individual — and
an Individual whose contract list is empty yields an Employee with null
contractStart, null contractEnd and null pcsEse. -/
theorem C10_normalize_one_employee_per_individual (declaration : Declaration) :
    normalizeEmployees declaration =
      (match declaration.entreprise with
        | none => ([] : List Etablissement)
        | some e => e.etablissements).flatMap
        (fun etab => etab.individus.map (specEmployeeOf etab)) ∧
    (∀ etab individu, individu.contrats = [] →
      (specEmployeeOf etab individu).contractStart = none ∧
      (specEmployeeOf etab individu).contractEnd = none ∧
      (specEmployeeOf etab individu).pcsEse = none) := by
  constructor
  · show (match declaration.entreprise with
        | none => ([] : List Etablissement)
        | some e => e.etablissements).foldl
        (fun (employees : List Employee) (etab : Etablissement) =>
          etab.individus.foldl
            (fun employees individu => employees ++ [specEmployeeOf etab individu])
            employees)
        [] = _
    generalize (match declaration.entreprise with
      | none => ([] : List Etablissement)
      | some e => e.etablissements) = etabs
    have key : ∀ (es : List Etablissement) (acc : List Employee),
        es.foldl
          (fun (employees : List Employee) (etab : Etablissement) =>
            etab.individus.foldl
              (fun employees individu => employees ++ [specEmployeeOf etab individu])
              employees)
          acc = acc ++ es.flatMap (fun etab => etab.individus.map (specEmployeeOf etab)) := by
      intro es
      induction es with
      | nil => intro acc; simp
      | cons e es ih =>
        intro acc
        simp only [List.foldl_cons, List.flatMap_cons]
        rw [foldl_append_singleton, ih, List.append_assoc]
    simpa using key etabs []
  · intro etab individu h
    simp [specEmployeeOf, h]

/-- C10 (witness): an individual with an empty contract list yields null
contract fields. -/
theorem C10_normalize_one_employee_per_individual_witness :
    (specEmployeeOf etabSample indNoContracts).contractStart = none ∧
    (specEmployeeOf etabSample indNoContracts).contractEnd = none ∧
    (specEmployeeOf etabSample indNoContracts).pcsEse = none :=
  (C10_normalize_one_employee_per_individual initDeclaration).2
    etabSample indNoContracts rfl

/-- Keys present after `recordSet` are old keys or the inserted key. -/
theorem mem_recordSet_keys {answers : List (String × Answer)} {key : String}
    {a : Answer} {k : String}
    (h : k ∈ (recordSet answers key a).map Prod.fst) :
    k ∈ answers.map Prod.fst ∨ k = key := by
  unfold recordSet at h
  split_ifs at h with hc
  · left
    have hkeys : (answers.map (fun p => if p.1 = key then (p.1, a) else p)).map
        Prod.fst = answers.map Prod.fst := by
      rw [List.map_map]
      apply List.map_congr_left
      intro p _
      by_cases hp : p.1 = key <;> simp [hp]
    rwa [hkeys] at h
  · rw [List.map_append] at h
    rcases List.mem_append.mp h with h1 | h1
    · exact Or.inl h1
    · simp at h1
      exact Or.inr h1

/-- Key invariant for answer-accumulating folds: if each step only adds
keys satisfying `P`, so does the whole fold. -/
theorem foldl_keys_invariant {β : Type} (P : String → Prop) :
    ∀ (l : List β) (step : List (String × Answer) → β → List (String × Answer)),
      (∀ ans b, b ∈ l → ∀ k, k ∈ (step ans b).map Prod.fst →
        k ∈ ans.map Prod.fst ∨ P k) →
      ∀ (ans : List (String × Answer)) (k : String),
        k ∈ (l.foldl step ans).map Prod.fst → k ∈ ans.map Prod.fst ∨ P k := by
  intro l
  induction l with
  | nil =>
    intro step _ ans k hk
    exact Or.inl hk
  | cons b bs ih =>
    intro step hstep ans k hk
    rw [List.foldl_cons] at hk
    rcases ih step (fun ans' b' hb' => hstep ans' b' (by simp [hb']))
        (step ans b) k hk with h | h
    · rcases hstep ans b (by simp) k h with h2 | h2
      · exact Or.inl h2
      · exact Or.inr h2
    · exact Or.inr h

/-- Keys present after `pushGroup` are old keys or the inserted key. -/
theorem mem_pushGroup_keys {groups : List (String × List Employee)}
    {key : String} {emp : Employee} {k : String}
    (h : k ∈ (pushGroup groups key emp).map Prod.fst) :
    k ∈ groups.map Prod.fst ∨ k = key := by
  unfold pushGroup at h
  split_ifs at h with hc
  · left
    have hkeys : (groups.map (fun g => if g.1 = key then (g.1, g.2 ++ [emp]) else g)).map
        Prod.fst = groups.map Prod.fst := by
      rw [List.map_map]
      apply List.map_congr_left
      intro p _
      by_cases hp : p.1 = key <;> simp [hp]
    rwa [hkeys] at h
  · rw [List.map_append] at h
    rcases List.mem_append.mp h with h1 | h1
    · exact Or.inl h1
    · simp at h1
      exact Or.inr h1

/-- Every bucket key of a grouping fold is the key of some employee. -/
theorem groupFold_keys (keyFn : Employee → String) :
    ∀ (emps : List Employee) (groups : List (String × List Employee)) (k : String),
      k ∈ (emps.foldl (fun gs e => pushGroup gs (keyFn e) e) groups).map Prod.fst →
      k ∈ groups.map Prod.fst ∨ ∃ e, k = keyFn e := by
  intro emps
  induction emps with
  | nil =>
    intro groups k hk
    exact Or.inl hk
  | cons e es ih =>
    intro groups k hk
    rw [List.foldl_cons] at hk
    rcases ih (pushGroup groups (keyFn e) e) k hk with h | h
    · rcases mem_pushGroup_keys h with h2 | h2
      · exact Or.inl h2
      · exact Or.inr ⟨e, h2⟩
    · exact Or.inr h

/-- C7 (amended): the single-dimension table procedures (country, region,
job-classification) never store an answer for the `"unknown"` bucket: every
key they add is `{childId}_{bucket}` with a bucket different from
`"unknown"`. The composite gender/job table skips only the
`"unknown_unknown"` bucket: every key it adds is
`{childId}_{gender}_{pcsEse}` where the two components are not both
`"unknown"` — a bucket with exactly one missing attribute is stored. -/
theorem C7_unknown_bucket_handling (tableNode : QuestionNode)
    (employees : List Employee) (period : Period)
    (answers : List (String × Answer)) (k : String) :
    (k ∈ (processCountryTable tableNode employees period answers).map Prod.fst →
      k ∈ answers.map Prod.fst ∨
        ∃ child ∈ tableNode.children, ∃ b, b ≠ "unknown" ∧
          k = child.id ++ "_" ++ b) ∧
    (k ∈ (processRegionTable tableNode employees period answers).map Prod.fst →
      k ∈ answers.map Prod.fst ∨
        ∃ child ∈ tableNode.children, ∃ b, b ≠ "unknown" ∧
          k = child.id ++ "_" ++ b) ∧
    (k ∈ (processCategoryTable tableNode employees period answers).map Prod.fst →
      k ∈ answers.map Prod.fst ∨
        ∃ child ∈ tableNode.children, ∃ b, b ≠ "unknown" ∧
          k = child.id ++ "_" ++ b) ∧
    (k ∈ (processContractGenderTable tableNode employees period answers).map
        Prod.fst →
      k ∈ answers.map Prod.fst ∨
        ∃ child ∈ tableNode.children, ∃ g p,
          ¬(g = "unknown" ∧ p = "unknown") ∧
          k = child.id ++ "_" ++ (g ++ "_" ++ p)) := by
  refine ⟨?_, ?_, ?_, ?_⟩
  · intro hk
    simp only [processCountryTable] at hk
    refine foldl_keys_invariant (fun kk => ∃ child ∈ tableNode.children, ∃ b, b ≠ "unknown" ∧ kk = child.id ++ "_" ++ b) _ _ ?_ answers k hk
    intro ans entry _ k' hk'
    split_ifs at hk' with hu
    · exact Or.inl hk'
    · refine foldl_keys_invariant (fun kk => ∃ child ∈ tableNode.children, ∃ b, b ≠ "unknown" ∧ kk = child.id ++ "_" ++ b) _ _ ?_ ans k' hk'
      intro ans2 child hchild k2 hk2
      split_ifs at hk2 with h5 h6
      · rcases mem_recordSet_keys hk2 with h | h
        · exact Or.inl h
        · exact Or.inr ⟨child, hchild, entry.1, hu, h⟩
      · rcases mem_recordSet_keys hk2 with h | h
        · exact Or.inl h
        · exact Or.inr ⟨child, hchild, entry.1, hu, h⟩
      · exact Or.inl hk2
  · intro hk
    simp only [processRegionTable] at hk
    refine foldl_keys_invariant (fun kk => ∃ child ∈ tableNode.children, ∃ b, b ≠ "unknown" ∧ kk = child.id ++ "_" ++ b) _ _ ?_ answers k hk
    intro ans entry _ k' hk'
    split_ifs at hk' with hu
    · exact Or.inl hk'
    · refine foldl_keys_invariant (fun kk => ∃ child ∈ tableNode.children, ∃ b, b ≠ "unknown" ∧ kk = child.id ++ "_" ++ b) _ _ ?_ ans k' hk'
      intro ans2 child hchild k2 hk2
      split_ifs at hk2 with h5 h6
      · rcases mem_recordSet_keys hk2 with h | h
        · exact Or.inl h
        · exact Or.inr ⟨child, hchild, entry.1, hu, h⟩
      · rcases mem_recordSet_keys hk2 with h | h
        · exact Or.inl h
        · exact Or.inr ⟨child, hchild, entry.1, hu, h⟩
      · exact Or.inl hk2
  · intro hk
    simp only [processCategoryTable] at hk
    refine foldl_keys_invariant (fun kk => ∃ child ∈ tableNode.children, ∃ b, b ≠ "unknown" ∧ kk = child.id ++ "_" ++ b) _ _ ?_ answers k hk
    intro ans entry _ k' hk'
    split_ifs at hk' with hu
    · exact Or.inl hk'
    · refine foldl_keys_invariant (fun kk => ∃ child ∈ tableNode.children, ∃ b, b ≠ "unknown" ∧ kk = child.id ++ "_" ++ b) _ _ ?_ ans k' hk'
      intro ans2 child hchild k2 hk2
      split_ifs at hk2 with h5 h6
      · rcases mem_recordSet_keys hk2 with h | h
        · exact Or.inl h
        · exact Or.inr ⟨child, hchild, entry.1, hu, h⟩
      · rcases mem_recordSet_keys hk2 with h | h
        · exact Or.inl h
        · exact Or.inr ⟨child, hchild, entry.1, hu, h⟩
      · exact Or.inl hk2
  · intro hk
    simp only [processContractGenderTable] at hk
    refine foldl_keys_invariant (fun kk => ∃ child ∈ tableNode.children, ∃ g p, ¬(g = "unknown" ∧ p = "unknown") ∧ kk = child.id ++ "_" ++ (g ++ "_" ++ p)) _ _ ?_ answers k hk
    intro ans entry hentry k' hk'
    split_ifs at hk' with hu
    · exact Or.inl hk'
    · have hsplit : ∃ g p, ¬(g = "unknown" ∧ p = "unknown") ∧
          entry.1 = g ++ "_" ++ p := by
        have hkey : entry.1 ∈
            (employees.foldl
              (fun groups emp => pushGroup groups (compositeGenderKey emp) emp)
              []).map Prod.fst :=
          List.mem_map_of_mem Prod.fst hentry
        rcases groupFold_keys compositeGenderKey employees [] entry.1 hkey with
          h | ⟨e, he⟩
        · simp at h
        · refine ⟨(match e.gender with
              | none => "unknown"
              | some g => if g = "" then "unknown" else g),
            (match e.pcsEse with
              | none => "unknown"
              | some p => if p = "" then "unknown" else p), ?_, he⟩
          rintro ⟨hg, hp⟩
          apply hu
          rw [he]
          simp only [compositeGenderKey]
          rw [hg, hp]
          decide
      rcases hsplit with ⟨g, p, hgp, hkey⟩
      refine foldl_keys_invariant (fun kk => ∃ child ∈ tableNode.children, ∃ g p, ¬(g = "unknown" ∧ p = "unknown") ∧ kk = child.id ++ "_" ++ (g ++ "_" ++ p)) _ _ ?_ ans k' hk'
      intro ans2 child hchild k2 hk2
      split_ifs at hk2 with h5 h6
      · rcases mem_recordSet_keys hk2 with h | h
        · exact Or.inl h
        · exact Or.inr ⟨child, hchild, g, p, hgp, by rw [h, hkey]⟩
      · rcases mem_recordSet_keys hk2 with h | h
        · exact Or.inl h
        · exact Or.inr ⟨child, hchild, g, p, hgp, by rw [h, hkey]⟩
      · exact Or.inl hk2

/-- C7 (counterexample): the composite gender/job table stores the answer
key `K_718_M_unknown` for an employee with gender `M` and no
job-classification code — a composite bucket whose second component is the
missing-attribute marker `unknown`, contradicting the claim that no such
key is ever stored. -/
theorem C7_counterexample :
    ¬ (∀ g p, p = "unknown" →
        ("K_718" ++ "_" ++ (g ++ "_" ++ p)) ∉
          (processContractGenderTable nodeGenderTable [empGenderOnly]
            sampleNov25 []).map Prod.fst) := by
  intro h
  exact h "M" "unknown" rfl (by decide)

/-- C7 (witness): the amended invariant instantiated on the country table —
the stored key `S1-6_05_FR` decomposes as a child id and a bucket different
from `unknown`. -/
theorem C7_unknown_bucket_handling_witness :
    ("S1-6_05" ++ "_" ++ "FR") ∈ ([] : List (String × Answer)).map Prod.fst ∨
      ∃ child ∈ nodeCountryTable.children, ∃ b, b ≠ "unknown" ∧
        ("S1-6_05" ++ "_" ++ "FR") = child.id ++ "_" ++ b :=
  (C7_unknown_bucket_handling nodeCountryTable [empGenderOnly] sampleNov25 []
    ("S1-6_05" ++ "_" ++ "FR")).1 (by decide)

/-- Membership in a stable insertion. -/
theorem mem_insertByOrder {x a : QuestionNode} :
    ∀ {l : List QuestionNode}, a ∈ insertByOrder x l → a = x ∨ a ∈ l := by
  intro l
  induction l with
  | nil =>
    intro h
    simp [insertByOrder] at h
    exact Or.inl h
  | cons y ys ih =>
    intro h
    simp only [insertByOrder] at h
    by_cases hc : y.order < x.order
    · rw [if_pos hc] at h
      rcases List.mem_cons.mp h with h | h
      · exact Or.inr (by simp [h])
      · rcases ih h with h2 | h2
        · exact Or.inl h2
        · exact Or.inr (List.mem_cons_of_mem _ h2)
    · rw [if_neg hc] at h
      rcases List.mem_cons.mp h with h | h
      · exact Or.inl h
      · exact Or.inr h

/-- Membership in the stable sort. -/
theorem mem_insSortByOrder {a : QuestionNode} :
    ∀ {l : List QuestionNode}, a ∈ insSortByOrder l → a ∈ l := by
  intro l
  induction l with
  | nil =>
    intro h
    simp [insSortByOrder] at h
  | cons x xs ih =>
    intro h
    simp only [insSortByOrder] at h
    rcases mem_insertByOrder h with h2 | h2
    · simp [h2]
    · exact List.mem_cons_of_mem _ (ih h2)

/-- Inserting into an order-sorted list keeps it order-sorted. -/
theorem pairwise_insertByOrder {x : QuestionNode} :
    ∀ {l : List QuestionNode},
      l.Pairwise (fun a b => a.order ≤ b.order) →
      (insertByOrder x l).Pairwise (fun a b => a.order ≤ b.order) := by
  intro l
  induction l with
  | nil =>
    intro _
    simp [insertByOrder]
  | cons y ys ih =>
    intro h
    rcases List.pairwise_cons.mp h with ⟨hy, hys⟩
    simp only [insertByOrder]
    split_ifs with hyx
    · refine List.pairwise_cons.mpr ⟨?_, ih hys⟩
      intro b hb
      rcases mem_insertByOrder hb with rfl | hb2
      · omega
      · exact hy b hb2
    · refine List.pairwise_cons.mpr ⟨?_, h⟩
      intro b hb
      rcases List.mem_cons.mp hb with rfl | hb2
      · omega
      · have := hy b hb2
        omega

/-- The stable sort is sorted ascending by `order`. -/
theorem pairwise_insSortByOrder :
    ∀ (l : List QuestionNode),
      (insSortByOrder l).Pairwise (fun a b => a.order ≤ b.order) := by
  intro l
  induction l with
  | nil => simp [insSortByOrder]
  | cons x xs ih => exact pairwise_insertByOrder ih

/-- Stability of the insertion step: elements of each order class keep
their relative positions. -/
theorem filter_insertByOrder (x : QuestionNode) (k : Int) :
    ∀ (l : List QuestionNode),
      (insertByOrder x l).filter (fun c => c.order = k) =
        ((x :: l).filter (fun c => c.order = k)) := by
  intro l
  induction l with
  | nil => rfl
  | cons y ys ih =>
    simp only [insertByOrder]
    split_ifs with hyx
    · by_cases hy : y.order = k
      · by_cases hx : x.order = k
        · omega
        · simp [List.filter_cons, hy, hx, ih]
      · simp [List.filter_cons, hy, ih]
    · rfl

/-- Stability of the sort: `filter` by any order value commutes with it. -/
theorem filter_insSortByOrder (k : Int) :
    ∀ (l : List QuestionNode),
      (insSortByOrder l).filter (fun c => c.order = k) =
        l.filter (fun c => c.order = k) := by
  intro l
  induction l with
  | nil => rfl
  | cons x xs ih =>
    simp only [insSortByOrder]
    rw [filter_insertByOrder]
    simp only [List.filter_cons]
    by_cases hx : x.order = k <;> simp [hx, ih]

/-- `sortForest` keeps the `order` field. -/
theorem sortForest_order (fuel : Nat) (q : QuestionNode) :
    (sortForest fuel q).order = q.order := by
  cases fuel <;> rfl

/-- `sortForest` keeps the `id` field. -/
theorem sortForest_id (fuel : Nat) (q : QuestionNode) :
    (sortForest fuel q).id = q.id := by
  cases fuel <;> rfl

/-- `buildNode` keeps the `id` field. -/
theorem buildNode_id (flatE : List (Nat × QuestionNode)) (fuel : Nat)
    (jq : Nat × QuestionNode) : (buildNode flatE fuel jq).id = jq.2.id := by
  cases fuel <;> rfl

/-- Every node built from a childless flat entry and then recursively
sorted has sorted sibling lists at every level. -/
theorem sortForest_buildNode_sortedDeep (flatE : List (Nat × QuestionNode))
    (hE : ∀ kq ∈ flatE, kq.2.children = []) :
    ∀ (fuel : Nat) (jq : Nat × QuestionNode), jq ∈ flatE →
      SortedDeep (sortForest fuel (buildNode flatE fuel jq)) := by
  intro fuel
  induction fuel with
  | zero =>
    intro jq hjq
    show SortedDeep jq.2
    refine SortedDeep.mk _ ?_ ?_ <;> rw [hE jq hjq]
    · exact List.Pairwise.nil
    · intro c hc
      cases hc
  | succ n ih =>
    intro jq hjq
    show SortedDeep
      { jq.2 with children :=
          (insSortByOrder ((childEntriesOf flatE jq.1).map
            (fun kq => buildNode flatE n kq))).map (fun c => sortForest n c) }
    refine SortedDeep.mk _ ?_ ?_
    · rw [List.pairwise_map]
      refine (pairwise_insSortByOrder _).imp ?_
      intro a b hab
      rw [sortForest_order, sortForest_order]
      exact hab
    · intro c hc
      rcases List.mem_map.mp hc with ⟨x, hx, rfl⟩
      have hx' := mem_insSortByOrder hx
      rcases List.mem_map.mp hx' with ⟨kq, hkq, rfl⟩
      exact ih kq (List.mem_of_mem_filter hkq)

/-- Filtering an enumerated list on the element and projecting it back
commutes with filtering the original list. -/
theorem enumFrom_filter_map_snd {α β : Type} (p : α → Bool) (f : α → β) :
    ∀ (l : List α) (n : Nat),
      ((List.enumFrom n l).filter (fun kq => p kq.2)).map (fun kq => f kq.2) =
        (l.filter p).map f := by
  intro l
  induction l with
  | nil => intro n; rfl
  | cons a as ih =>
    intro n
    simp only [List.enumFrom, List.filter_cons]
    by_cases hp : p a <;> simp [hp, ih]

/-- The CSV row loop only builds childless flat nodes. -/
theorem rowsToNodes_children (headers : List String) :
    ∀ (i : Nat) (ls : List (List Char)) (flat : List QuestionNode),
      rowsToNodes headers i ls = .ok flat → ∀ q ∈ flat, q.children = [] := by
  intro i ls
  induction ls generalizing i with
  | nil =>
    intro flat h q hq
    simp only [rowsToNodes] at h
    cases h
    cases hq
  | cons l ls ih =>
    intro flat h q hq
    simp only [rowsToNodes] at h
    split_ifs at h
    cases hrec : rowsToNodes headers (i + 1) ls with
    | error e => rw [hrec] at h; cases h
    | ok rest =>
      rw [hrec] at h
      cases h
      rcases List.mem_cons.mp hq with rfl | hq2
      · rfl
      · exact ih (i + 1) rest hrec q hq2

/-- An enumerated entry's payload belongs to the original list. -/
theorem snd_mem_of_mem_enumFrom {α : Type} :
    ∀ {l : List α} {n : Nat} (kq : Nat × α), kq ∈ List.enumFrom n l → kq.2 ∈ l := by
  intro l
  induction l with
  | nil =>
    intro n kq h
    cases h
  | cons a as ih =>
    intro n kq h
    rcases List.mem_cons.mp h with rfl | h2
    · simp
    · exact List.mem_cons_of_mem _ (ih kq h2)

/-- C4 (amended): in the forest assembled by the loader, the children of
every node — recursively, at every level below the top — are sorted
ascending by `order`, with ties preserving their previous (source row)
order, since the sort is stable (filtering any order class commutes with
it) and children are attached in source row order; the top-level roots,
however, are NOT sorted: they are returned in source row order (only
`sortChildren` is applied to each root, never to the root array itself).
The loader applies exactly this assembly to the flat rows it parses, and
every parsed flat row starts with an empty child list. -/
theorem C4_children_sorted_roots_in_source_order (flat : List QuestionNode)
    (hflat : ∀ q ∈ flat, q.children = []) :
    (∀ r ∈ buildForest flat, SortedDeep r) ∧
    ((buildForest flat).map (fun q => q.id) =
      (flat.filter (fun q => !(isAttachable flat q))).map (fun q => q.id)) ∧
    (∀ (l : List QuestionNode) (k : Int),
      (insSortByOrder l).filter (fun c => c.order = k) =
        l.filter (fun c => c.order = k)) ∧
    (∀ content flat2, loadQuestionsFlat content = .ok flat2 →
      loadQuestionsFromContent content = .ok (buildForest flat2) ∧
        ∀ q ∈ flat2, q.children = []) := by
  refine ⟨?_, ?_, ?_, ?_⟩
  · intro r hr
    simp only [buildForest] at hr
    rcases List.mem_map.mp hr with ⟨kq, hkq, rfl⟩
    have hkq' : kq ∈ flat.enum := List.mem_of_mem_filter hkq
    have hE : ∀ kq2 ∈ flat.enum, kq2.2.children = [] := by
      intro kq2 hkq2
      exact hflat kq2.2 (snd_mem_of_mem_enumFrom kq2 hkq2)
    exact sortForest_buildNode_sortedDeep flat.enum hE (flat.length + 1) kq hkq'
  · simp only [buildForest]
    rw [List.map_map]
    have hfn : ((fun q => q.id) ∘
        fun kq => sortForest (flat.length + 1)
          (buildNode flat.enum (flat.length + 1) kq)) =
        fun (kq : Nat × QuestionNode) => kq.2.id := by
      funext kq
      simp [Function.comp, sortForest_id, buildNode_id]
    rw [hfn]
    have := enumFrom_filter_map_snd
      (fun q => !(isAttachable flat q)) (fun q => q.id) flat 0
    simpa [List.enum] using this
  · intro l k
    exact filter_insSortByOrder k l
  · intro content flat2 h
    constructor
    · simp only [loadQuestionsFromContent, h]
    · simp only [loadQuestionsFlat] at h
      rcases hsplit : ((splitOnChar '\n' content.toList).map jsTrim).filter
          (fun l => l ≠ []) with _ | ⟨hd, dataLines⟩
      · rw [hsplit] at h
        cases h
      · rw [hsplit] at h
        simp only at h
        split_ifs at h
        exact rowsToNodes_children _ 1 dataLines flat2 h

/-- C4 (counterexample): a catalogue of two root rows with orders 2 then 1
loads to a root list in source order `[2, 1]`, not sorted ascending by
`order` — the loader sorts every node's children recursively but never
sorts the top-level root array, so sibling roots violate the claim. -/
theorem C4_counterexample :
    loadQuestionsFromContent csvSample = .ok (buildForest flatSample) ∧
    (buildForest flatSample).map (fun q => q.order) = [2, 1] ∧
    ¬ ((buildForest flatSample).map (fun q => q.order)).Pairwise
        (fun a b => a ≤ b) := by
  refine ⟨by rfl, by rfl, ?_⟩
  intro h
  rw [show (buildForest flatSample).map (fun q => q.order) = [2, 1] from rfl] at h
  rcases List.pairwise_cons.mp h with ⟨h2, _⟩
  have := h2 1 (by simp)
  omega

/-- C4 (witness): the amended theorem's loader clause instantiated on the
concrete two-root catalogue. -/
theorem C4_children_sorted_roots_in_source_order_witness :
    loadQuestionsFromContent csvSample = .ok (buildForest flatSample) :=
  ((C4_children_sorted_roots_in_source_order [] (by simp)).2.2.2
    csvSample flatSample (by rfl)).1
